import Mathlib

/-!
Verification of the buffered split-connection frame transport
(`src/amqprs/src/net/split_connection.rs`).

Bytes are modelled as `List Nat`; the stream is modelled explicitly: the
writer records the bytes it has flushed, the reader holds the list of chunks
the stream will deliver (an exhausted list models EOF, i.e. a zero-byte
read).  The external frame codec (`crate::frame`) is not part of the source
tree here; its decode/serialize contract is modelled from the spec's wire
format.
-/

namespace Amqprs

/-- Error taxonomy used by the split connection: `Error::CloseCallbackError`
(clean close), `Error::Interrupted` (EOF mid-frame), transport I/O errors and
codec corruption errors. -/
inductive Error where
  | closeCallback : Error
  | interrupted : Error
  | transport : Error
  | decode : Error
  deriving DecidableEq, Repr

/-- Big-endian 2-byte encoding of a channel id (`u16`). -/
def u16be (n : Nat) : List Nat :=
  [n / 256 % 256, n % 256]

/-- Big-endian 4-byte encoding of a payload size (`u32::to_be_bytes`). -/
def u32be (n : Nat) : List Nat :=
  [n / 2 ^ 24 % 256, n / 2 ^ 16 % 256, n / 2 ^ 8 % 256, n % 256]

/-- Modelled from the spec: `FRAME_END`, the fixed frame-end sentinel byte
appended after every payload (the AMQP frame-end octet). -/
def FRAME_END : Nat := 206

/-- Modelled from the spec: a frame value carries a frame type and a payload
whose byte-level encoding is produced by the external codec; we identify the
frame with its type byte and encoded payload bytes. -/
structure Frame where
  frameType : Nat
  payload : List Nat
  deriving DecidableEq, Repr

def Frame.get_frame_type (f : Frame) : Nat := f.frameType

/-- The 7-byte fixed-layout frame header: type (1 byte), channel (2 bytes,
big-endian), payload size (4 bytes, big-endian). -/
structure FrameHeader where
  frame_type : Nat
  channel : Nat
  payload_size : Nat
  deriving DecidableEq, Repr

/-- Modelled from the spec: serialization of the frame header by the external
serializer (`to_buffer(&header, ..)`), following the wire format of §6. -/
def FrameHeader.toBytes (h : FrameHeader) : List Nat :=
  [h.frame_type % 256] ++ u16be h.channel ++ u32be h.payload_size

/-- Overwrite bytes of `buf` in place starting at index `i`
(the length-patch loop of `write_frame`). -/
def patchBytes : List Nat → Nat → List Nat → List Nat
  | buf, _, [] => buf
  | buf, i, v :: rest => patchBytes (buf.set i v) (i + 1) rest

/-- Modelled from the spec: `Frame::decode` of the external codec.  Parses at
most one complete frame from the front of the buffer: returns `none` when
insufficient bytes are present (without consuming anything), an error when the
frame-end sentinel is structurally invalid, and otherwise the consumed byte
length, the channel id and the decoded frame. -/
def Frame.decode (buf : List Nat) : Except Error (Option (Nat × Nat × Frame)) :=
  if buf.length < 7 then .ok none
  else
    let n := buf.getD 3 0 * 2 ^ 24 + buf.getD 4 0 * 2 ^ 16 + buf.getD 5 0 * 2 ^ 8 + buf.getD 6 0
    if buf.length < 7 + n + 1 then .ok none
    else if buf.getD (7 + n) 0 = FRAME_END then
      .ok (some (7 + n + 1, buf.getD 1 0 * 256 + buf.getD 2 0,
        ⟨buf.getD 0 0, (buf.drop 7).take n⟩))
    else .error .decode

/-- The writer half: its pending write buffer and the bytes it has flushed to
the outbound stream so far. -/
structure BufWriter where
  buffer : List Nat
  sent : List Nat
  deriving DecidableEq, Repr

/-- `BufWriter::write`: serialize `ser` into the buffer, flush the whole
buffer, then drain exactly the flushed length.  `flushFails` models a
transport error of `write_all`; on failure the buffer is left un-drained. -/
def BufWriter.write (w : BufWriter) (ser : List Nat) (flushFails : Bool) :
    BufWriter × Except Error Nat :=
  let buf := w.buffer ++ ser
  let len := buf.length
  if flushFails then (⟨buf, w.sent⟩, .error .transport)
  else (⟨buf.drop len, w.sent ++ buf⟩, .ok len)

/-- `BufWriter::write_frame`: append a 7-byte header with a zero payload-size
placeholder, append the encoded payload, overwrite the 4 length bytes at
offset 3 with the big-endian actual payload size, append the frame-end byte,
flush the whole buffer in one write, then drain it and return the flushed
length. -/
def BufWriter.write_frame (w : BufWriter) (channel : Nat) (frame : Frame)
    (flushFails : Bool) : BufWriter × Except Error Nat :=
  let header : FrameHeader := ⟨frame.get_frame_type, channel, 0⟩
  let b1 := w.buffer ++ header.toBytes
  let payload_size := frame.payload.length
  let b2 := b1 ++ frame.payload
  let b3 := patchBytes b2 3 (u32be payload_size)
  let b4 := b3 ++ [FRAME_END]
  if flushFails then ({ w with buffer := b4 }, .error .transport)
  else
    let len := b4.length
    (⟨b4.drop len, w.sent ++ b4⟩, .ok len)

/-- The reader half: the chunks the inbound stream will still deliver (each
`read_buf` call yields the next chunk; an empty list models EOF) and the
pending read buffer. -/
structure BufReader where
  chunks : List (List Nat)
  buffer : List Nat
  deriving DecidableEq, Repr

/-- `BufReader::decode`: ask the codec to parse the buffer; on a decoded frame
advance the buffer by exactly the consumed length; on "incomplete" or error
leave the buffer untouched. -/
def BufReader.decode (r : BufReader) : BufReader × Except Error (Option (Nat × Frame)) :=
  match Frame.decode r.buffer with
  | .error e => (r, .error e)
  | .ok none => (r, .ok none)
  | .ok (some (len, channel_id, frame)) =>
      ({ r with buffer := r.buffer.drop len }, .ok (some (channel_id, frame)))

/-- The read loop of `BufReader::read_frame`: read the next chunk from the
stream; a zero-byte read yields `CloseCallbackError` on an empty buffer and
`Interrupted` otherwise; else append the chunk and try to decode again. -/
def readFrameLoop : List (List Nat) → List Nat → BufReader × Except Error (Nat × Frame)
  | [], buffer =>
      (⟨[], buffer⟩,
        if buffer.isEmpty then .error Error.closeCallback else .error Error.interrupted)
  | c :: rest, buffer =>
      if c.length = 0 then
        (⟨rest, buffer⟩,
          if buffer.isEmpty then .error Error.closeCallback else .error Error.interrupted)
      else
        let buf2 := buffer ++ c
        match Frame.decode buf2 with
        | .error e => (⟨rest, buf2⟩, .error e)
        | .ok (some (len, channel_id, frame)) =>
            (⟨rest, buf2.drop len⟩, .ok (channel_id, frame))
        | .ok none => readFrameLoop rest buf2

/-- `BufReader::read_frame`: first try to decode the bytes already buffered;
only when that yields no frame enter the stream-read loop. -/
def BufReader.read_frame (r : BufReader) : BufReader × Except Error (Nat × Frame) :=
  match r.decode with
  | (r1, .error e) => (r1, .error e)
  | (r1, .ok (some cf)) => (r1, .ok cf)
  | (r1, .ok none) => readFrameLoop r1.chunks r1.buffer

/-- Observable stream-level actions of closing. -/
inductive StreamAction where
  | shutdownWrite : StreamAction
  deriving DecidableEq, Repr

/-- `BufReader::close`: does nothing except consume the reader — it performs
no stream action. -/
def BufReader.close (_ : BufReader) : List StreamAction := []

/-- `BufWriter::close`: shut down the write direction of the stream
(`shutdownOk` models whether the shutdown syscall succeeds). -/
def BufWriter.close (_ : BufWriter) (shutdownOk : Bool) :
    List StreamAction × Except Error Unit :=
  ([StreamAction.shutdownWrite], if shutdownOk then .ok () else .error .transport)

/-- The unsplit connection: a reader half and a writer half. -/
structure SplitConnection where
  reader : BufReader
  writer : BufWriter

/-- `SplitConnection::close`: close the reader half (a no-op) and the writer
half (write-direction shutdown), returning the latter's result. -/
def SplitConnection.close (c : SplitConnection) (shutdownOk : Bool) :
    List StreamAction × Except Error Unit :=
  let ra := c.reader.close
  let wres := c.writer.close shutdownOk
  (ra ++ wres.1, wres.2)

/-- The bytes `write_frame` flushes from an empty writer buffer: the header
with the patched payload-size field, the payload, then the frame-end byte. -/
theorem write_frame_sent_eq (frame : Frame) (channel : Nat) :
    (BufWriter.write_frame ⟨[], []⟩ channel frame false).1.sent =
      [frame.frameType % 256] ++ u16be channel ++ u32be frame.payload.length
        ++ frame.payload ++ [FRAME_END] := by
  simp [BufWriter.write_frame, FrameHeader.toBytes, Frame.get_frame_type, u16be, u32be,
    patchBytes, List.set]

/-- The byte count `write_frame` flushes from an empty writer buffer. -/
theorem write_frame_sent_length (frame : Frame) (channel : Nat) :
    (BufWriter.write_frame ⟨[], []⟩ channel frame false).1.sent.length
      = frame.payload.length + 8 := by
  rw [write_frame_sent_eq frame channel]
  simp [u16be, u32be]

/-- C1: `write_frame` from an empty writer buffer flushes, in one write, the
header whose 4 bytes at offset 3 are the big-endian actual payload length
(overwriting the zero placeholder in place), followed by the payload and the
single frame-end byte, and leaves the buffer empty; in particular
`write_frame(channel := 1, empty payload)` flushes exactly the 8 bytes
`[type_byte, 0x00, 0x01, 0x00, 0x00, 0x00, 0x00, FRAME_END]`. -/
theorem write_frame_bytes (frame : Frame) (channel : Nat) :
    (BufWriter.write_frame ⟨[], []⟩ channel frame false).1.sent
      = [frame.frameType % 256] ++ u16be channel ++ u32be frame.payload.length
          ++ frame.payload ++ [FRAME_END]
    ∧ (((BufWriter.write_frame ⟨[], []⟩ channel frame false).1.sent).drop 3).take 4
      = u32be frame.payload.length
    ∧ (BufWriter.write_frame ⟨[], []⟩ channel frame false).1.buffer = []
    ∧ (BufWriter.write_frame ⟨[], []⟩ 1 ⟨frame.frameType, []⟩ false).1.sent
      = [frame.frameType % 256, 0, 1, 0, 0, 0, 0, FRAME_END]
    ∧ (BufWriter.write_frame ⟨[], []⟩ 1 ⟨frame.frameType, []⟩ false).1.sent.length = 8
    ∧ (BufWriter.write_frame ⟨[], []⟩ 1 ⟨frame.frameType, []⟩ false).1.buffer = [] := by
  have hsc : (BufWriter.write_frame ⟨[], []⟩ 1 ⟨frame.frameType, []⟩ false).1.sent
      = [frame.frameType % 256, 0, 1, 0, 0, 0, 0, FRAME_END] := by
    simp [BufWriter.write_frame, FrameHeader.toBytes, Frame.get_frame_type, u16be, u32be,
      patchBytes, List.set]
  refine ⟨write_frame_sent_eq frame channel, ?_, ?_, hsc, ?_, ?_⟩
  · rw [write_frame_sent_eq frame channel]
    simp [u16be, u32be]
  · simp [BufWriter.write_frame, List.drop_length]
  · rw [hsc]
    rfl
  · simp [BufWriter.write_frame, List.drop_length]

/-- C9: a successful `write_frame` from an empty writer buffer returns the
total number of bytes flushed, namely the payload length plus 8 (7 header
bytes plus the frame-end byte), which equals the number of bytes put on the
stream. -/
theorem write_frame_returns_total (frame : Frame) (channel : Nat) :
    (BufWriter.write_frame ⟨[], []⟩ channel frame false).2
      = .ok (frame.payload.length + 8)
    ∧ (BufWriter.write_frame ⟨[], []⟩ channel frame false).1.sent.length
      = frame.payload.length + 8 := by
  have hlen := write_frame_sent_length frame channel
  have h2 : (BufWriter.write_frame ⟨[], []⟩ channel frame false).2
      = .ok ((BufWriter.write_frame ⟨[], []⟩ channel frame false).1.sent.length) := rfl
  exact ⟨by rw [h2, hlen], hlen⟩

/-- Decoding a well-formed encoded frame recovers the consumed length, the
channel id and the frame. -/
theorem decode_encoded (ft ch n : Nat) (payload : List Nat)
    (hft : ft < 256) (hch : ch < 65536) (hn : n < 2 ^ 32) (hp : payload.length = n) :
    Frame.decode ([ft % 256, ch / 256 % 256, ch % 256, n / 2 ^ 24 % 256,
        n / 2 ^ 16 % 256, n / 2 ^ 8 % 256, n % 256] ++ (payload ++ [FRAME_END]))
      = .ok (some (7 + n + 1, ch, ⟨ft, payload⟩)) := by
  have hlen : ([ft % 256, ch / 256 % 256, ch % 256, n / 2 ^ 24 % 256,
      n / 2 ^ 16 % 256, n / 2 ^ 8 % 256, n % 256] ++ (payload ++ [FRAME_END])).length
      = 7 + (n + 1) := by
    simp [hp]
    omega
  have h0 := List.getD_append [ft % 256, ch / 256 % 256, ch % 256, n / 2 ^ 24 % 256,
      n / 2 ^ 16 % 256, n / 2 ^ 8 % 256, n % 256] (payload ++ [FRAME_END]) 0 0 (by simp)
  have h1 := List.getD_append [ft % 256, ch / 256 % 256, ch % 256, n / 2 ^ 24 % 256,
      n / 2 ^ 16 % 256, n / 2 ^ 8 % 256, n % 256] (payload ++ [FRAME_END]) 0 1 (by simp)
  have h2 := List.getD_append [ft % 256, ch / 256 % 256, ch % 256, n / 2 ^ 24 % 256,
      n / 2 ^ 16 % 256, n / 2 ^ 8 % 256, n % 256] (payload ++ [FRAME_END]) 0 2 (by simp)
  have h3 := List.getD_append [ft % 256, ch / 256 % 256, ch % 256, n / 2 ^ 24 % 256,
      n / 2 ^ 16 % 256, n / 2 ^ 8 % 256, n % 256] (payload ++ [FRAME_END]) 0 3 (by simp)
  have h4 := List.getD_append [ft % 256, ch / 256 % 256, ch % 256, n / 2 ^ 24 % 256,
      n / 2 ^ 16 % 256, n / 2 ^ 8 % 256, n % 256] (payload ++ [FRAME_END]) 0 4 (by simp)
  have h5 := List.getD_append [ft % 256, ch / 256 % 256, ch % 256, n / 2 ^ 24 % 256,
      n / 2 ^ 16 % 256, n / 2 ^ 8 % 256, n % 256] (payload ++ [FRAME_END]) 0 5 (by simp)
  have h6 := List.getD_append [ft % 256, ch / 256 % 256, ch % 256, n / 2 ^ 24 % 256,
      n / 2 ^ 16 % 256, n / 2 ^ 8 % 256, n % 256] (payload ++ [FRAME_END]) 0 6 (by simp)
  have hreassemble : ([ft % 256, ch / 256 % 256, ch % 256, n / 2 ^ 24 % 256,
      n / 2 ^ 16 % 256, n / 2 ^ 8 % 256, n % 256] ++ (payload ++ [FRAME_END])).getD 3 0
        * 2 ^ 24
      + ([ft % 256, ch / 256 % 256, ch % 256, n / 2 ^ 24 % 256,
      n / 2 ^ 16 % 256, n / 2 ^ 8 % 256, n % 256] ++ (payload ++ [FRAME_END])).getD 4 0
        * 2 ^ 16
      + ([ft % 256, ch / 256 % 256, ch % 256, n / 2 ^ 24 % 256,
      n / 2 ^ 16 % 256, n / 2 ^ 8 % 256, n % 256] ++ (payload ++ [FRAME_END])).getD 5 0
        * 2 ^ 8
      + ([ft % 256, ch / 256 % 256, ch % 256, n / 2 ^ 24 % 256,
      n / 2 ^ 16 % 256, n / 2 ^ 8 % 256, n % 256] ++ (payload ++ [FRAME_END])).getD 6 0
      = n := by
    rw [h3, h4, h5, h6]
    norm_num
    omega
  have hchannel : ([ft % 256, ch / 256 % 256, ch % 256, n / 2 ^ 24 % 256,
      n / 2 ^ 16 % 256, n / 2 ^ 8 % 256, n % 256] ++ (payload ++ [FRAME_END])).getD 1 0 * 256
      + ([ft % 256, ch / 256 % 256, ch % 256, n / 2 ^ 24 % 256,
      n / 2 ^ 16 % 256, n / 2 ^ 8 % 256, n % 256] ++ (payload ++ [FRAME_END])).getD 2 0
      = ch := by
    rw [h1, h2]
    show ch / 256 % 256 * 256 + ch % 256 = ch
    omega
  have hend : ([ft % 256, ch / 256 % 256, ch % 256, n / 2 ^ 24 % 256,
      n / 2 ^ 16 % 256, n / 2 ^ 8 % 256, n % 256] ++ (payload ++ [FRAME_END])).getD (7 + n) 0
      = FRAME_END := by
    rw [List.getD_append_right _ _ _ _ (by simp)]
    have hminus : 7 + n - ([ft % 256, ch / 256 % 256, ch % 256, n / 2 ^ 24 % 256,
        n / 2 ^ 16 % 256, n / 2 ^ 8 % 256, n % 256] : List Nat).length = n := by
      simp
    rw [hminus, List.getD_append_right _ _ _ _ (le_of_eq hp), hp]
    simp
  have hdrop : ([ft % 256, ch / 256 % 256, ch % 256, n / 2 ^ 24 % 256,
      n / 2 ^ 16 % 256, n / 2 ^ 8 % 256, n % 256] ++ (payload ++ [FRAME_END])).drop 7
      = payload ++ [FRAME_END] :=
    List.drop_left' rfl
  have htake : (payload ++ [FRAME_END]).take n = payload := List.take_left' hp
  simp only [Frame.decode]
  rw [hreassemble, hchannel, hlen, hend, h0, hdrop, htake]
  rw [if_neg (by omega), if_neg (by omega), if_pos rfl, Nat.mod_eq_of_lt hft]
  simp

/-- C5: round-trip — decoding the bytes `write_frame` flushed from an empty
writer buffer yields the same channel id and frame, consuming exactly all of
the produced bytes. -/
theorem round_trip (frame : Frame) (channel : Nat)
    (hft : frame.frameType < 256) (hch : channel < 65536)
    (hn : frame.payload.length < 2 ^ 32) :
    Frame.decode ((BufWriter.write_frame ⟨[], []⟩ channel frame false).1.sent)
      = .ok (some ((BufWriter.write_frame ⟨[], []⟩ channel frame false).1.sent.length,
          channel, frame)) := by
  have hlen := write_frame_sent_length frame channel
  rw [hlen, write_frame_sent_eq frame channel]
  have hshape : [frame.frameType % 256] ++ u16be channel ++ u32be frame.payload.length
      ++ frame.payload ++ [FRAME_END]
      = [frame.frameType % 256, channel / 256 % 256, channel % 256,
          frame.payload.length / 2 ^ 24 % 256, frame.payload.length / 2 ^ 16 % 256,
          frame.payload.length / 2 ^ 8 % 256, frame.payload.length % 256]
        ++ (frame.payload ++ [FRAME_END]) := by
    simp [u16be, u32be]
  rw [hshape]
  have h := decode_encoded frame.frameType channel frame.payload.length frame.payload
    hft hch hn rfl
  rw [h]
  have : 7 + frame.payload.length + 1 = frame.payload.length + 8 := by omega
  rw [this]

theorem round_trip_witness :
    Frame.decode ((BufWriter.write_frame ⟨[], []⟩ 258 ⟨2, [10, 20, 30]⟩ false).1.sent)
      = .ok (some ((BufWriter.write_frame ⟨[], []⟩ 258 ⟨2, [10, 20, 30]⟩ false).1.sent.length,
          258, ⟨2, [10, 20, 30]⟩)) :=
  round_trip ⟨2, [10, 20, 30]⟩ 258 (by decide) (by decide) (by norm_num)

/-- C2: in `read_frame`'s loop, a zero-byte stream read with an empty buffer
fails with the clean-close classification (`CloseCallbackError`), a zero-byte
read with a non-empty buffer fails with the interrupted classification
(`Interrupted`), and the two classifications are distinct; moreover, entering
the loop with no frame decodable from the buffered bytes and a stream at EOF
makes `read_frame` itself fail the same way. -/
theorem read_frame_eof_classification (buffer : List Nat) (rest : List (List Nat))
    (h : Frame.decode buffer = .ok none) :
    (readFrameLoop [] buffer).2 =
      (if buffer.isEmpty then .error Error.closeCallback else .error Error.interrupted)
    ∧ (readFrameLoop ([] :: rest) buffer).2 =
      (if buffer.isEmpty then .error Error.closeCallback else .error Error.interrupted)
    ∧ (BufReader.read_frame ⟨[], buffer⟩).2 =
      (if buffer.isEmpty then .error Error.closeCallback else .error Error.interrupted)
    ∧ Error.closeCallback ≠ Error.interrupted := by
  refine ⟨rfl, rfl, ?_, by decide⟩
  simp [BufReader.read_frame, BufReader.decode, h, readFrameLoop]

theorem read_frame_eof_classification_witness :
    Frame.decode ([1, 0, 1] : List Nat) = .ok none
    ∧ (BufReader.read_frame ⟨[], [1, 0, 1]⟩).2 = .error Error.interrupted :=
  ⟨rfl, by
    have h := read_frame_eof_classification [1, 0, 1] [] rfl
    simpa using h.2.2.1⟩

/-- C3: whenever the reader's `decode` returns a frame, it removes exactly the
codec-reported decoded length from the front of the buffer, leaving precisely
the unconsumed trailing bytes. -/
theorem decode_consumes_exactly (r : BufReader) (len channel_id : Nat) (frame : Frame)
    (h : Frame.decode r.buffer = .ok (some (len, channel_id, frame))) :
    r.decode = ({ r with buffer := r.buffer.drop len }, .ok (some (channel_id, frame))) := by
  simp [BufReader.decode, h]

theorem decode_consumes_exactly_witness :
    Frame.decode ([1, 0, 1, 0, 0, 0, 0, 206, 9, 9] : List Nat) = .ok (some (8, 1, ⟨1, []⟩))
    ∧ BufReader.decode ⟨[], [1, 0, 1, 0, 0, 0, 0, 206, 9, 9]⟩
      = (⟨[], [9, 9]⟩, .ok (some (1, ⟨1, []⟩))) :=
  ⟨rfl, by
    have h := decode_consumes_exactly ⟨[], [1, 0, 1, 0, 0, 0, 0, 206, 9, 9]⟩ 8 1 ⟨1, []⟩ rfl
    simpa using h⟩

/-- C4: whenever the codec reports that insufficient bytes are present, the
reader's `decode` returns "no frame yet" and leaves the reader state — in
particular the buffer — unchanged byte-for-byte. -/
theorem decode_incomplete_no_mutation (r : BufReader)
    (h : Frame.decode r.buffer = .ok none) :
    r.decode = (r, .ok none) := by
  simp [BufReader.decode, h]

theorem decode_incomplete_no_mutation_witness :
    Frame.decode ([1, 0, 1, 0, 0] : List Nat) = .ok none
    ∧ BufReader.decode ⟨[], [1, 0, 1, 0, 0]⟩ = (⟨[], [1, 0, 1, 0, 0]⟩, .ok none) :=
  ⟨rfl, decode_incomplete_no_mutation ⟨[], [1, 0, 1, 0, 0]⟩ rfl⟩

/-- C6: when the reader's buffer already contains a complete frame,
`read_frame` returns it immediately, leaving the stream chunks untouched — no
stream read is performed. -/
theorem read_frame_buffered_no_read (r : BufReader) (len channel_id : Nat) (frame : Frame)
    (h : Frame.decode r.buffer = .ok (some (len, channel_id, frame))) :
    r.read_frame = ({ r with buffer := r.buffer.drop len }, .ok (channel_id, frame)) := by
  simp [BufReader.read_frame, BufReader.decode, h]

theorem read_frame_buffered_no_read_witness :
    Frame.decode ([1, 0, 1, 0, 0, 0, 0, 206] : List Nat) = .ok (some (8, 1, ⟨1, []⟩))
    ∧ BufReader.read_frame ⟨[[7, 7]], [1, 0, 1, 0, 0, 0, 0, 206]⟩
      = (⟨[[7, 7]], []⟩, .ok (1, ⟨1, []⟩)) :=
  ⟨rfl, by
    have h := read_frame_buffered_no_read ⟨[[7, 7]], [1, 0, 1, 0, 0, 0, 0, 206]⟩ 8 1 ⟨1, []⟩ rfl
    simpa using h⟩

/-- C7: `write` serializes the value into the buffer, flushes the whole buffer
and on success drains exactly the flushed byte count (leaving the buffer
empty), returning that count; if the flush fails, the transport error is
returned and the buffer is left un-drained, still holding the serialized
bytes. -/
theorem write_flush_drain (w : BufWriter) (ser : List Nat) :
    w.write ser false = (⟨[], w.sent ++ (w.buffer ++ ser)⟩, .ok (w.buffer ++ ser).length)
    ∧ w.write ser true = (⟨w.buffer ++ ser, w.sent⟩, .error .transport) := by
  constructor
  · simp [BufWriter.write]
  · rfl

/-- C8: `close` on an unsplit connection performs exactly the write-direction
shutdown on the stream, the discarded reader half contributing no stream
action, and returns the result of the write-direction shutdown. -/
theorem connection_close (c : SplitConnection) (shutdownOk : Bool) :
    c.close shutdownOk = ([StreamAction.shutdownWrite], (c.writer.close shutdownOk).2)
    ∧ c.reader.close = [] :=
  ⟨rfl, rfl⟩

/-- C10: when the codec reports structurally invalid bytes, the reader's
`decode` returns the corruption error with the reader state — buffer and
stream chunks — unchanged, and `read_frame` propagates that error without
performing any stream read. -/
theorem decode_error_path (r : BufReader) (e : Error)
    (h : Frame.decode r.buffer = .error e) :
    r.decode = (r, .error e) ∧ r.read_frame = (r, .error e) := by
  constructor
  · simp [BufReader.decode, h]
  · simp [BufReader.read_frame, BufReader.decode, h]

theorem decode_error_path_witness :
    Frame.decode ([1, 0, 1, 0, 0, 0, 0, 99] : List Nat) = .error Error.decode
    ∧ BufReader.decode ⟨[[7]], [1, 0, 1, 0, 0, 0, 0, 99]⟩
      = (⟨[[7]], [1, 0, 1, 0, 0, 0, 0, 99]⟩, .error Error.decode)
    ∧ BufReader.read_frame ⟨[[7]], [1, 0, 1, 0, 0, 0, 0, 99]⟩
      = (⟨[[7]], [1, 0, 1, 0, 0, 0, 0, 99]⟩, .error Error.decode) := by
  have h := decode_error_path ⟨[[7]], [1, 0, 1, 0, 0, 0, 0, 99]⟩ Error.decode rfl
  exact ⟨rfl, h.1, h.2⟩

end Amqprs
